import Mathlib

/-!
Verification development for the Facebook-marketing stream core
(`source_facebook_marketing/streams/streams.py`).

Shallow embedding conventions:
* Cursor/date values are represented by their parsed chronological value as
  epoch seconds (`Nat`).  `pendulum.parse` / `str` round-trip at this level of
  abstraction, `pendulum.instance` is the identity, and `.int_timestamp` is the
  identity as well, so chronological `max` is `Nat.max`.
* A Python dict key that may be absent is an `Option`.
* Python code that raises (a `KeyError` on a missing record field) is embedded
  as a function returning `Option`, with `none` for the raising path.
* The attribute `entity_prefix` of the source is embedded under the name
  `entity_pfx`.
-/

namespace FacebookMarketing

/-- Value slot of one filter clause: an integer epoch-seconds timestamp or a
list of status strings. -/
inductive FilterValue where
  | int (n : Nat)
  | strList (vs : List String)
  deriving DecidableEq, Repr

/-- One element of the `filtering` list: `{field, operator, value}`. -/
structure FilterClause where
  field : String
  operator : String
  value : FilterValue
  deriving DecidableEq, Repr

/-- Request parameters built per read invocation: `limit` plus the `filtering`
list (the empty list embeds an absent `filtering` key). -/
structure RequestParams where
  limit : Nat
  filtering : List FilterClause
  deriving DecidableEq, Repr

/-- Stream state as read by the code: the value stored under the cursor field
(absent ↦ `none`) and the value stored under `include_deleted`
(absent ↦ `none`). -/
structure StreamState where
  cursor : Option Nat
  include_deleted : Option Bool
  deriving DecidableEq, Repr

/-- State returned by `get_updated_state`: always both keys. -/
structure UpdatedState where
  cursor : Nat
  include_deleted : Bool
  deriving DecidableEq, Repr

/-- Per-stream configuration fixed at construction, embedding the class
attributes `page_size`, `enable_deleted`, `entity_prefix` (as `entity_pfx`)
and the instance attribute `_include_deleted`. -/
structure FBMarketingStream where
  page_size : Nat := 100
  enable_deleted : Bool := false
  entity_pfx : String
  _include_deleted : Bool
  deriving DecidableEq, Repr

/-- Embeds `FBMarketingStream.__init__`:
`self._include_deleted = include_deleted if self.enable_deleted else False`. -/
def FBMarketingStream.init (pfx : String) (enable_del : Bool)
    (include_deleted : Bool) : FBMarketingStream :=
  { entity_pfx := pfx
    enable_deleted := enable_del
    _include_deleted := if enable_del then include_deleted else false }

/-- The 14 lifecycle status values of `_filter_all_statuses`. -/
def filt_values : List String :=
  ["active", "archived", "completed", "limited", "not_delivering", "deleted",
   "not_published", "pending_review", "permanently_deleted",
   "recently_completed", "recently_rejected", "rejected", "scheduled",
   "inactive"]

/-- Embeds `FBMarketingStream._filter_all_statuses` (the value of its
`filtering` key). -/
def FBMarketingStream._filter_all_statuses (st : FBMarketingStream) :
    List FilterClause :=
  [{ field := st.entity_pfx ++ ".delivery_info"
     operator := "IN"
     value := .strList filt_values }]

/-- Embeds `FBMarketingStream.request_params`: `{"limit": page_size}`, updated
with the status filter when `_include_deleted` is set. -/
def FBMarketingStream.request_params (st : FBMarketingStream) : RequestParams :=
  { limit := st.page_size
    filtering :=
      if st._include_deleted then st._filter_all_statuses else [] }

/-- Embeds the incremental stream class: adds `cursor_field` (default
`updated_time`) and the start/end dates of `__init__`. -/
structure FBMarketingIncrementalStream extends FBMarketingStream where
  cursor_field : String := "updated_time"
  _start_date : Nat
  _end_date : Nat
  deriving DecidableEq, Repr

/-- Embeds `FBMarketingIncrementalStream.__init__` on top of an initialized
base stream. -/
def FBMarketingIncrementalStream.init (base : FBMarketingStream)
    (start_date end_date : Nat) : FBMarketingIncrementalStream :=
  { toFBMarketingStream := base
    _start_date := start_date
    _end_date := end_date }

/-- Embeds `FBMarketingIncrementalStream.get_updated_state`.  The argument
`latest_record` is the value of the record at the cursor field (`none` when
the record lacks the field; the source raises a `KeyError` there, embedded as
the `none` result). -/
def FBMarketingIncrementalStream.get_updated_state
    (st : FBMarketingIncrementalStream) (current_stream_state : StreamState)
    (latest_record : Option Nat) : Option UpdatedState :=
  let potentially_new_records_in_the_past :=
    st._include_deleted && !(current_stream_state.include_deleted.getD false)
  match latest_record with
  | none => none
  | some record_value =>
    let state_value := current_stream_state.cursor.getD record_value
    let max_cursor := max state_value record_value
    let max_cursor :=
      if potentially_new_records_in_the_past then record_value else max_cursor
    some { cursor := max_cursor, include_deleted := st._include_deleted }

/-- Embeds `FBMarketingIncrementalStream._state_filter` (the value of its
`filtering` key). -/
def FBMarketingIncrementalStream._state_filter
    (st : FBMarketingIncrementalStream) (stream_state : StreamState) :
    List FilterClause :=
  let filter_value :=
    match stream_state.cursor with
    | none => st._start_date
    | some v => v
  let potentially_new_records_in_the_past :=
    st._include_deleted && !(stream_state.include_deleted.getD false)
  let filter_value :=
    if potentially_new_records_in_the_past then st._start_date else filter_value
  [{ field := st.entity_pfx ++ "." ++ st.cursor_field
     operator := "GREATER_THAN"
     value := .int filter_value }]

/-- Embeds `FBMarketingIncrementalStream.request_params`.  The combination of
the base parameters with the state filter is Modelled from the spec: the
helper `deep_merge` lives in `common.py`, which is not part of the sources
here; per the spec, `filtering` is an ordered list of clauses and the state
clause is merged into the base parameters, embedded as list concatenation. -/
def FBMarketingIncrementalStream.request_params
    (st : FBMarketingIncrementalStream) (stream_state : Option StreamState) :
    RequestParams :=
  let s := stream_state.getD { cursor := none, include_deleted := none }
  let base := st.toFBMarketingStream.request_params
  { limit := base.limit, filtering := base.filtering ++ st._state_filter s }

/-- Embeds `AdCreatives`' construction: `entity_prefix = "adcreative"`, no
deleted-inclusion support (`enable_deleted` stays `False`). -/
def AdCreatives.init (include_deleted : Bool) : FBMarketingStream :=
  FBMarketingStream.init "adcreative" false include_deleted

/-- Embeds `Ads`' construction. -/
def Ads.init (include_deleted : Bool) (start_date end_date : Nat) :
    FBMarketingIncrementalStream :=
  FBMarketingIncrementalStream.init (FBMarketingStream.init "ad" true include_deleted)
    start_date end_date

/-- Embeds `AdSets`' construction. -/
def AdSets.init (include_deleted : Bool) (start_date end_date : Nat) :
    FBMarketingIncrementalStream :=
  FBMarketingIncrementalStream.init (FBMarketingStream.init "adset" true include_deleted)
    start_date end_date

/-- Embeds `Campaigns`' construction. -/
def Campaigns.init (include_deleted : Bool) (start_date end_date : Nat) :
    FBMarketingIncrementalStream :=
  FBMarketingIncrementalStream.init (FBMarketingStream.init "campaign" true include_deleted)
    start_date end_date

/-- Embeds `Videos`' construction. -/
def Videos.init (include_deleted : Bool) (start_date end_date : Nat) :
    FBMarketingIncrementalStream :=
  FBMarketingIncrementalStream.init (FBMarketingStream.init "video" true include_deleted)
    start_date end_date

/-- Epoch seconds of 2021-01-01T00:00:00Z. -/
def epoch20210101 : Nat := 1609459200

/-! ## Batch execution (`execute_in_batch` / `_execute_batch`)

A pending detail-fetch request is embedded together with the transport's
behavior on it: `retries` is the number of times `batch.execute()` returns the
request in its retry residue before it settles, and `outcome` is the callback
the transport finally invokes — `some payload` for the success callback
(which appends `response.json()`, here an opaque `Nat` payload, to `records`),
`none` for the failure callback (which only logs a warning). -/

structure FBRequest where
  retries : Nat
  outcome : Option Nat
  deriving DecidableEq, Repr

/-- Embeds `MAX_BATCH_SIZE = 50`. -/
def MAX_BATCH_SIZE : Nat := 50

/-- Payloads captured by the success callbacks during one `batch.execute()`
call: the requests that settle this round (`retries = 0`), in request order,
restricted to those resolving through the success path. -/
def settleOutcomes (b : List FBRequest) : List Nat :=
  (b.filter (fun r => r.retries == 0)).filterMap (fun r => r.outcome)

/-- The residual batch returned by `batch.execute()`: the still-pending
requests, each one round closer to settling. -/
def residue (b : List FBRequest) : List FBRequest :=
  (b.filter (fun r => r.retries != 0)).map
    (fun r => { r with retries := r.retries - 1 })

/-- Termination measure for the retry loop of `_execute_batch`. -/
def batchMeasure (b : List FBRequest) : Nat :=
  (b.map (fun r => r.retries)).sum + b.length

theorem residue_cons (r : FBRequest) (rest : List FBRequest) :
    residue (r :: rest) =
      if r.retries = 0 then residue rest
      else { r with retries := r.retries - 1 } :: residue rest := by
  by_cases h : r.retries = 0 <;> simp [residue, h]

theorem batchMeasure_residue (b : List FBRequest) :
    batchMeasure (residue b) + b.length ≤ batchMeasure b := by
  induction b with
  | nil => simp [batchMeasure, residue]
  | cons r rest ih =>
    rw [residue_cons]
    by_cases h : r.retries = 0 <;>
      simp only [if_pos, if_neg, h, ite_true, ite_false, batchMeasure,
        List.length_cons, List.map_cons, List.sum_cons] at ih ⊢ <;>
      omega

/-- Embeds `FBMarketingStream._execute_batch`: repeatedly call
`batch.execute()` on the residual batch until it is empty, and collect the
payloads captured by the success callbacks, in the order the callbacks ran. -/
def _execute_batch (b : List FBRequest) : List Nat :=
  if h : b = [] then []
  else settleOutcomes b ++ _execute_batch (residue b)
termination_by batchMeasure b
decreasing_by
  have hle := batchMeasure_residue b
  have hlen : 0 < b.length := List.length_pos.mpr h
  omega

/-- Embeds the loop body of `FBMarketingStream.execute_in_batch`: walk the
pending requests, accumulate the current `api_batch`, execute it when it
reaches `MAX_BATCH_SIZE`, yield the captured records, then continue with a
fresh batch; finally flush the last (possibly empty) batch.  Returns the list
of batches passed (non-empty) to `batch.execute()` together with the full
yielded output. -/
def executeInBatchAux :
    List FBRequest → List FBRequest → List (List FBRequest) × List Nat
  | [], batch =>
    if batch = [] then ([], []) else ([batch], _execute_batch batch)
  | r :: rest, batch =>
    let batch' := batch ++ [r]
    if batch'.length = MAX_BATCH_SIZE then
      let res := executeInBatchAux rest []
      (batch' :: res.1, _execute_batch batch' ++ res.2)
    else
      executeInBatchAux rest batch'

/-- Embeds `FBMarketingStream.execute_in_batch`, starting from a fresh
`api_batch`. -/
def execute_in_batch (pending_requests : List FBRequest) :
    List (List FBRequest) × List Nat :=
  executeInBatchAux pending_requests []

/-! ## Thumbnail enrichment (`fetch_thumbnail_data_url` / `AdCreatives.read_records`)

The transport outcome of `requests.get(url)` is embedded as `HttpResult`:
either a response (status code, `content-type` header, body bytes) or a
raised `requests.exceptions.RequestException`. -/

inductive HttpResult where
  | resp (status : Nat) (contentType : String) (content : List Nat)
  | exn (msg : String)
  deriving DecidableEq, Repr

/-- Alphabet of standard base64. -/
def base64Chars : List Char :=
  "ABCDEFGHIJKLMNOPQRSTUVWXYZabcdefghijklmnopqrstuvwxyz0123456789+/".toList

/-- One base64 digit. -/
def b64digit (n : Nat) : Char := base64Chars.getD n 'A'

/-- Standard base64 of a byte list (embeds `base64.b64encode`). -/
def base64Encode : List Nat → List Char
  | [] => []
  | [a] => [b64digit (a / 4), b64digit (a % 4 * 16), '=', '=']
  | [a, b] => [b64digit (a / 4), b64digit (a % 4 * 16 + b / 16),
               b64digit (b % 16 * 4), '=']
  | a :: b :: c :: rest =>
    b64digit (a / 4) :: b64digit (a % 4 * 16 + b / 16) ::
      b64digit (b % 16 * 4 + c / 64) :: b64digit (c % 64) :: base64Encode rest

/-- Embeds `fetch_thumbnail_data_url` applied to the transport's outcome for
the requested url: on a 200 OK response, the image embedded as a base64 data
URI; on any other status or a raised `RequestException`, a logged warning and
`None`. -/
def fetch_thumbnail_data_url (r : HttpResult) : Option String :=
  match r with
  | .resp status contentType content =>
    if status = 200 then
      some ("data:" ++ contentType ++ ";base64," ++
        String.mk (base64Encode content))
    else none
  | .exn _ => none

/-- A record is a flat mapping of field name to nullable value, embedded as an
ordered association list (Python dict with insertion order). -/
abbrev Rec : Type := List (String × Option String)

/-- Embeds Python dict assignment `record[k] = v`: replace in place when the
key exists, else append. -/
def setField : Rec → String → Option String → Rec
  | [], k, v => [(k, v)]
  | (k', v') :: rest, k, v =>
    if k' = k then (k, v) :: rest else (k', v') :: setField rest k v

/-- Embeds `record.get(k)`: the stored value, or `None` when the key is
absent (a stored null and an absent key both read as `None`). -/
def getField (r : Rec) (k : String) : Option String :=
  match List.lookup k r with
  | some v => v
  | none => none

/-- Embeds one enrichment step of `AdCreatives.read_records`: the thumbnail
GET for a record, given the transport `http`.  A record with no
`thumbnail_url` makes `requests.get(None)` raise a `RequestException`
(`MissingSchema`), which the except branch turns into `None`. -/
def thumbnailFor (http : String → HttpResult) (url : Option String) :
    Option String :=
  match url with
  | none => fetch_thumbnail_data_url (.exn "MissingSchema")
  | some u => fetch_thumbnail_data_url (http u)

/-- Embeds `AdCreatives.read_records` over the records yielded by the base
class, given the transport `http` for thumbnail GETs: when
`_fetch_thumbnail_images` is set, each record gets `thumbnail_data_url`
assigned from the thumbnail fetch; every record is yielded either way. -/
def AdCreatives.read_records (fetch_thumbnail_images : Bool)
    (http : String → HttpResult) (records : List Rec) : List Rec :=
  records.map (fun record =>
    if fetch_thumbnail_images then
      setField record "thumbnail_data_url"
        (thumbnailFor http (getField record "thumbnail_url"))
    else record)

/-- Expected sizes of the batches issued for `n` pending requests with batch
size 50. -/
def chunkSizes (n : Nat) : List Nat :=
  List.replicate (n / 50) 50 ++ (if n % 50 = 0 then [] else [n % 50])

/-! ## Theorems -/

/-- C1: for every incremental stream, `get_updated_state` returns the
chronological max of the prior state's cursor (defaulting to the record's own
value when the state has none) and the record's cursor, except that when the
stream has `include_deleted` enabled while the prior state's `include_deleted`
is false or absent, the returned cursor is exactly the record's own cursor
value; and the returned state always carries `include_deleted` equal to the
stream's current setting. -/
theorem C1_get_updated_state_cursor (st : FBMarketingIncrementalStream)
    (s : StreamState) (rv : Nat) :
    ((st._include_deleted = true ∧ s.include_deleted.getD false = false) →
      st.get_updated_state s (some rv) =
        some { cursor := rv, include_deleted := st._include_deleted }) ∧
    (¬(st._include_deleted = true ∧ s.include_deleted.getD false = false) →
      st.get_updated_state s (some rv) =
        some { cursor := max (s.cursor.getD rv) rv,
               include_deleted := st._include_deleted }) := by
  constructor
  · rintro ⟨h1, h2⟩
    simp [FBMarketingIncrementalStream.get_updated_state, h1, h2]
  · intro h
    rcases Decidable.not_and_iff_or_not.mp h with h | h
    · have h1 : st._include_deleted = false := by
        cases hb : st._include_deleted <;> simp_all
      simp [FBMarketingIncrementalStream.get_updated_state, h1]
    · have h2 : s.include_deleted.getD false = true := by
        cases hb : s.include_deleted.getD false <;> simp_all
      simp [FBMarketingIncrementalStream.get_updated_state, h2]

theorem C1_witness :
    (Campaigns.init true epoch20210101 1612137600).get_updated_state
        { cursor := some 9, include_deleted := some false } (some 7) =
      some { cursor := 7, include_deleted := true } :=
  (C1_get_updated_state_cursor (Campaigns.init true epoch20210101 1612137600)
    { cursor := some 9, include_deleted := some false } 7).1 (by decide)

/-- C3: when the prior state records a cursor value and records
`include_deleted` equal to the stream's current setting, the cursor of the
state returned by `get_updated_state` never regresses below the recorded
value. -/
theorem C3_cursor_monotone (st : FBMarketingIncrementalStream)
    (s : StreamState) (c rv : Nat) (h1 : s.cursor = some c)
    (h2 : s.include_deleted = some st._include_deleted) :
    ∃ u, st.get_updated_state s (some rv) = some u ∧ c ≤ u.cursor := by
  refine ⟨{ cursor := max c rv, include_deleted := st._include_deleted },
    ?_, le_max_left _ _⟩
  cases hb : st._include_deleted <;>
    simp [FBMarketingIncrementalStream.get_updated_state, h1, h2, hb]

theorem C3_witness :
    ∃ u, (Ads.init true 0 10).get_updated_state
        { cursor := some 5, include_deleted := some true } (some 3) =
      some u ∧ 5 ≤ u.cursor :=
  C3_cursor_monotone (Ads.init true 0 10)
    { cursor := some 5, include_deleted := some true } 5 3 rfl rfl

/-- C4 counterexample: with the override firing (stream `include_deleted`
enabled, prior state's disabled), `get_updated_state` emits the record's own
cursor value 77, not the configured start date 100 — the claim that the
emitted cursor is reset to the start date is false. -/
theorem C4_counterexample :
    (Campaigns.init true 100 200).get_updated_state
        { cursor := some 50, include_deleted := some false } (some 77) =
      some { cursor := 77, include_deleted := true } ∧
    (77 : Nat) ≠ (Campaigns.init true 100 200)._start_date := by
  constructor
  · decide
  · decide

/-- C4 (amended): when the include-deleted override fires (stream has
`include_deleted` enabled and the prior state's `include_deleted` is false or
absent), the cursor emitted by `get_updated_state` is set to exactly the
latest record's own cursor value (the reset to the configured start date
happens in the request-parameter threshold, not in the emitted state). -/
theorem C4_override_emits_record_cursor (st : FBMarketingIncrementalStream)
    (s : StreamState) (rv : Nat) (h1 : st._include_deleted = true)
    (h2 : s.include_deleted.getD false = false) :
    st.get_updated_state s (some rv) =
      some { cursor := rv, include_deleted := true } := by
  simp [FBMarketingIncrementalStream.get_updated_state, h1, h2]

theorem C4_witness :
    (AdSets.init true 0 99).get_updated_state
        { cursor := none, include_deleted := none } (some 42) =
      some { cursor := 42, include_deleted := true } :=
  C4_override_emits_record_cursor (AdSets.init true 0 99)
    { cursor := none, include_deleted := none } 42 rfl rfl

/-- C9: the override is one-directional — when the stream's
`include_deleted` is disabled while the prior state records
`include_deleted = true`, no override fires: `_state_filter` uses the
recorded cursor as the GREATER_THAN threshold and `get_updated_state` still
returns the chronological max. -/
theorem C9_no_reverse_override (st : FBMarketingIncrementalStream)
    (s : StreamState) (c rv : Nat)
    (h1 : st._include_deleted = false) (h2 : s.include_deleted = some true)
    (h3 : s.cursor = some c) :
    st._state_filter s =
      [{ field := st.entity_pfx ++ "." ++ st.cursor_field,
         operator := "GREATER_THAN", value := .int c }] ∧
    ({ field := st.entity_pfx ++ "." ++ st.cursor_field,
       operator := "GREATER_THAN", value := .int c } : FilterClause) ∈
      (st.request_params (some s)).filtering ∧
    st.get_updated_state s (some rv) =
      some { cursor := max c rv, include_deleted := false } := by
  refine ⟨?_, ?_, ?_⟩
  · simp [FBMarketingIncrementalStream._state_filter, h1, h2, h3]
  · apply List.mem_append_right
    simp [FBMarketingIncrementalStream._state_filter, h1, h2, h3]
  · simp [FBMarketingIncrementalStream.get_updated_state, h1, h2, h3]

theorem C9_witness :
    (Videos.init false 0 99)._state_filter
        { cursor := some 11, include_deleted := some true } =
      [{ field := "video.updated_time", operator := "GREATER_THAN",
         value := .int 11 }] ∧
    ({ field := "video.updated_time", operator := "GREATER_THAN",
       value := .int 11 } : FilterClause) ∈
      ((Videos.init false 0 99).request_params
        (some { cursor := some 11, include_deleted := some true })).filtering ∧
    (Videos.init false 0 99).get_updated_state
        { cursor := some 11, include_deleted := some true } (some 4) =
      some { cursor := 11, include_deleted := false } :=
  C9_no_reverse_override (Videos.init false 0 99)
    { cursor := some 11, include_deleted := some true } 11 4 rfl rfl rfl

/-- C10: `get_updated_state` is defined only when the latest record contains
the cursor field — a record lacking it takes the raising (`KeyError`) path,
embedded as the `none` result, while any record carrying the field produces a
state. -/
theorem C10_cursor_field_required (st : FBMarketingIncrementalStream)
    (s : StreamState) :
    st.get_updated_state s none = none ∧
    ∀ rv : Nat, ∃ u, st.get_updated_state s (some rv) = some u := by
  exact ⟨rfl, fun rv => ⟨_, rfl⟩⟩

/-- C2: for every incremental stream and state, `request_params` contains a
GREATER_THAN clause on `{entityPrefix}.{cursorField}` whose epoch-seconds
threshold is the start date when the state records no cursor, the recorded
cursor otherwise, but the start date whenever `include_deleted` is enabled
while the prior state's `include_deleted` is false or absent; in particular,
for Campaigns with start date 2021-01-01T00:00:00Z and empty state the clause
is `campaign.updated_time GREATER_THAN epoch(2021-01-01T00:00:00Z)`. -/
theorem C2_state_filter_threshold :
    (∀ (st : FBMarketingIncrementalStream) (stream_state : Option StreamState),
      { field := st.entity_pfx ++ "." ++ st.cursor_field,
        operator := "GREATER_THAN",
        value := .int
          (if st._include_deleted = true ∧
              ((stream_state.getD { cursor := none, include_deleted := none
                }).include_deleted.getD false) = false
           then st._start_date
           else
             match (stream_state.getD { cursor := none, include_deleted := none
               }).cursor with
             | none => st._start_date
             | some v => v) } ∈ (st.request_params stream_state).filtering) ∧
    ({ field := "campaign.updated_time", operator := "GREATER_THAN",
       value := .int 1609459200 } : FilterClause) ∈
      ((Campaigns.init false epoch20210101 1612137600).request_params
        none).filtering := by
  constructor
  · intro st stream_state
    apply List.mem_append_right
    cases hid : st._include_deleted <;>
      cases hgd : (stream_state.getD { cursor := none, include_deleted := none
        }).include_deleted.getD false <;>
      cases hc : (stream_state.getD { cursor := none, include_deleted := none
        }).cursor <;>
      simp [FBMarketingIncrementalStream._state_filter, hid, hgd, hc]
  · decide

/-- C5: `request_params` always sets `limit` to the page size, whose default
is 100; when deleted inclusion is supported and requested it adds the IN
clause over the 14 lifecycle statuses on `{entityPrefix}.delivery_info`; and
for a stream without deleted-inclusion support (AdCreatives) the
`include_deleted` construction flag is ignored and no status filter is ever
produced. -/
theorem C5_request_params_base :
    (∀ (pfx : String) (e incl : Bool),
      (FBMarketingStream.init pfx e incl).request_params.limit =
        (FBMarketingStream.init pfx e incl).page_size) ∧
    (∀ (pfx : String) (e incl : Bool),
      (FBMarketingStream.init pfx e incl).page_size = 100) ∧
    (∀ (pfx : String),
      (FBMarketingStream.init pfx true true).request_params.filtering =
        [{ field := pfx ++ ".delivery_info", operator := "IN",
           value := .strList
             ["active", "archived", "completed", "limited", "not_delivering",
              "deleted", "not_published", "pending_review",
              "permanently_deleted", "recently_completed",
              "recently_rejected", "rejected", "scheduled", "inactive"] }] ∧
      (FBMarketingStream.init pfx true false).request_params.filtering = []) ∧
    (∀ incl : Bool,
      (AdCreatives.init incl)._include_deleted = false ∧
      (AdCreatives.init incl).request_params.filtering = []) := by
  refine ⟨fun pfx e incl => rfl, fun pfx e incl => rfl, fun pfx => ⟨?_, ?_⟩,
    fun incl => ⟨rfl, ?_⟩⟩
  · simp [FBMarketingStream.init, FBMarketingStream.request_params,
      FBMarketingStream._filter_all_statuses, filt_values]
  · simp [FBMarketingStream.init, FBMarketingStream.request_params]
  · simp [AdCreatives.init, FBMarketingStream.init,
      FBMarketingStream.request_params]

/-! ### Helper lemmas for batch execution -/

theorem executeInBatchAux_flatten (pending : List FBRequest) :
    ∀ batch : List FBRequest,
      (executeInBatchAux pending batch).1.flatten = batch ++ pending := by
  induction pending with
  | nil =>
    intro batch
    by_cases h : batch = [] <;> simp [executeInBatchAux, h]
  | cons r rest ih =>
    intro batch
    simp only [executeInBatchAux]
    by_cases h : batch.length + 1 = MAX_BATCH_SIZE <;>
      simp [h, ih]

theorem executeInBatchAux_output (pending : List FBRequest) :
    ∀ batch : List FBRequest,
      (executeInBatchAux pending batch).2 =
        ((executeInBatchAux pending batch).1.map _execute_batch).flatten := by
  induction pending with
  | nil =>
    intro batch
    by_cases h : batch = [] <;> simp [executeInBatchAux, h]
  | cons r rest ih =>
    intro batch
    simp only [executeInBatchAux]
    by_cases h : batch.length + 1 = MAX_BATCH_SIZE <;>
      simp [h, ih]

theorem _execute_batch_no_retry (b : List FBRequest)
    (h : ∀ r ∈ b, r.retries = 0) :
    _execute_batch b = b.filterMap (fun r => r.outcome) := by
  rw [_execute_batch]
  by_cases hb : b = []
  · simp [hb]
  · rw [dif_neg hb]
    have hfil : b.filter (fun r => r.retries == 0) = b :=
      List.filter_eq_self.mpr (by simpa using h)
    have hres : residue b = [] := by
      have : b.filter (fun r => r.retries != 0) = [] := by
        rw [List.filter_eq_nil_iff]
        intro r hr
        simp [h r hr]
      simp [residue, this]
    rw [hres, _execute_batch]
    simp [settleOutcomes, hfil]

theorem _execute_batch_perm_aux :
    ∀ (n : Nat) (b : List FBRequest), batchMeasure b ≤ n →
      (_execute_batch b).Perm (b.filterMap (fun r => r.outcome)) := by
  intro n
  induction n with
  | zero =>
    intro b hb
    have hnil : b = [] := by
      cases b with
      | nil => rfl
      | cons r rest => simp [batchMeasure] at hb
    subst hnil
    rw [_execute_batch]
    simp
  | succ n ih =>
    intro b hb
    by_cases hbe : b = []
    · subst hbe
      rw [_execute_batch]
      simp
    · rw [_execute_batch, dif_neg hbe]
      have hres : batchMeasure (residue b) ≤ n := by
        have h1 := batchMeasure_residue b
        have h2 : 0 < b.length := List.length_pos.mpr hbe
        omega
      have hperm := ih (residue b) hres
      have hcomp : (residue b).filterMap (fun r => r.outcome) =
          (b.filter (fun r => r.retries != 0)).filterMap
            (fun r => r.outcome) := by
        simp [residue, List.filterMap_map]
        rfl
      refine List.Perm.trans (hperm.append_left (settleOutcomes b)) ?_
      have heq : settleOutcomes b ++
          (residue b).filterMap (fun r => r.outcome) =
          (b.filter (fun r => r.retries == 0) ++
            b.filter (fun r => r.retries != 0)).filterMap
              (fun r => r.outcome) := by
        rw [hcomp, List.filterMap_append]
        rfl
      rw [heq]
      exact List.Perm.filterMap _
        (List.filter_append_perm (fun r => r.retries == 0) b)

theorem _execute_batch_perm (b : List FBRequest) :
    (_execute_batch b).Perm (b.filterMap (fun r => r.outcome)) :=
  _execute_batch_perm_aux (batchMeasure b) b le_rfl

theorem chunkSizes_add50 (m : Nat) : chunkSizes (m + 50) = 50 :: chunkSizes m := by
  unfold chunkSizes
  rw [Nat.add_div_right _ (by norm_num), Nat.add_mod_right]
  simp [List.replicate_succ]

theorem executeInBatchAux_sizes (pending : List FBRequest) :
    ∀ batch : List FBRequest, batch.length < 50 →
      (executeInBatchAux pending batch).1.map List.length =
        chunkSizes (batch.length + pending.length) := by
  induction pending with
  | nil =>
    intro batch hb
    by_cases h : batch = []
    · simp [executeInBatchAux, h, chunkSizes]
    · have h0 : batch.length ≠ 0 :=
        Nat.pos_iff_ne_zero.mp (List.length_pos.mpr h)
      simp only [executeInBatchAux, if_neg h, List.map_cons, List.map_nil,
        List.length_nil, Nat.add_zero, chunkSizes,
        Nat.div_eq_of_lt hb, Nat.mod_eq_of_lt hb]
      simp [h0]
  | cons r rest ih =>
    intro batch hb
    simp only [executeInBatchAux]
    by_cases h : (batch ++ [r]).length = MAX_BATCH_SIZE
    · rw [if_pos h]
      have hb1 : batch.length + 1 = 50 := by
        simpa [MAX_BATCH_SIZE] using h
      simp only [List.map_cons]
      rw [ih [] (by norm_num)]
      have he : batch.length + (rest.length + 1) = rest.length + 50 := by omega
      simp only [List.length_cons, List.length_nil, Nat.zero_add, he,
        chunkSizes_add50]
      simp [hb1]
    · rw [if_neg h]
      have hlt : (batch ++ [r]).length < 50 := by
        simp only [MAX_BATCH_SIZE, List.length_append, List.length_cons,
          List.length_nil] at h ⊢
        omega
      rw [ih _ hlt]
      congr 1
      simp only [List.length_append, List.length_cons, List.length_nil]
      omega

/-- C6: 120 pending requests with batch size 50 and a transport reporting no
retry residue give exactly 3 batch executions of sizes 50, 50 and 20, and the
yielded output is exactly the successful payloads of each batch, emitted in
the order the batches settled. -/
theorem C6_batch_sizes_and_output (pending_requests : List FBRequest)
    (h1 : pending_requests.length = 120)
    (h2 : ∀ r ∈ pending_requests, r.retries = 0) :
    (execute_in_batch pending_requests).1.map List.length = [50, 50, 20] ∧
    (execute_in_batch pending_requests).2 =
      ((execute_in_batch pending_requests).1.map
        (fun b => b.filterMap (fun r => r.outcome))).flatten := by
  constructor
  · have hs := executeInBatchAux_sizes pending_requests [] (by norm_num)
    rw [execute_in_batch, hs]
    simp only [List.length_nil, Nat.zero_add, h1]
    decide
  · rw [execute_in_batch, executeInBatchAux_output]
    congr 1
    apply List.map_congr_left
    intro b hbmem
    apply _execute_batch_no_retry
    intro r hr
    apply h2
    have hmem : r ∈ (executeInBatchAux pending_requests []).1.flatten :=
      List.mem_flatten_of_mem hbmem hr
    rwa [executeInBatchAux_flatten] at hmem

theorem C6_witness :
    (execute_in_batch (List.replicate 120
        { retries := 0, outcome := some 7 })).1.map List.length =
      [50, 50, 20] ∧
    (execute_in_batch (List.replicate 120
        { retries := 0, outcome := some 7 })).2 =
      ((execute_in_batch (List.replicate 120
          { retries := 0, outcome := some 7 })).1.map
        (fun b => b.filterMap (fun r => r.outcome))).flatten :=
  C6_batch_sizes_and_output _ (by simp)
    (fun r hr => by rw [List.eq_of_mem_replicate hr])

/-- C7: for every list of pending requests, the yielded output of
`execute_in_batch` consists exactly of the payloads of the requests resolving
through the success path — a request resolving through the failure path
contributes no record, and the (total) function raises nothing. -/
theorem C7_failure_path_dropped (pending_requests : List FBRequest) :
    ((execute_in_batch pending_requests).2).Perm
      (pending_requests.filterMap (fun r => r.outcome)) := by
  rw [execute_in_batch, executeInBatchAux_output]
  have hjoin : ∀ L : List (List FBRequest),
      ((L.map _execute_batch).flatten).Perm
        ((L.map (fun b => b.filterMap (fun r => r.outcome))).flatten) := by
    intro L
    induction L with
    | nil => simp
    | cons b L ihL => simpa using (_execute_batch_perm b).append ihL
  refine (hjoin _).trans ?_
  rw [← List.filterMap_flatten, executeInBatchAux_flatten]
  simp

/-! ### Helper lemmas for thumbnail enrichment -/

theorem getField_setField (r : Rec) (k : String) (v : Option String) :
    getField (setField r k v) k = v := by
  induction r with
  | nil => simp [setField, getField, List.lookup]
  | cons p rest ih =>
    obtain ⟨k', v'⟩ := p
    by_cases h : k' = k
    · simp [setField, h, getField, List.lookup]
    · simp only [setField, if_neg h]
      have hne : (k == k') = false := by
        simp [Ne.symm h]
      simpa [getField, List.lookup, hne] using ih

/-- C8: with thumbnail fetching enabled, every record of the base stream is
still yielded with `thumbnail_data_url` holding the thumbnail-fetch result,
and that result is `none` (null) on any non-OK status such as 404 or on a
transport fault — no error is raised — while on a 200 response it is the
image embedded as a base64 data URI. -/
theorem C8_thumbnail_swallows_faults (records : List Rec)
    (http : String → HttpResult) (record : Rec) (hmem : record ∈ records) :
    (∃ yielded ∈ AdCreatives.read_records true http records,
      getField yielded "thumbnail_data_url" =
        thumbnailFor http (getField record "thumbnail_url")) ∧
    (∀ status contentType content, status ≠ 200 →
      fetch_thumbnail_data_url (.resp status contentType content) = none) ∧
    (∀ msg, fetch_thumbnail_data_url (.exn msg) = none) ∧
    (∀ contentType content,
      fetch_thumbnail_data_url (.resp 200 contentType content) =
        some ("data:" ++ contentType ++ ";base64," ++
          String.mk (base64Encode content))) := by
  refine ⟨?_, ?_, fun msg => rfl, fun contentType content => rfl⟩
  · refine ⟨setField record "thumbnail_data_url"
      (thumbnailFor http (getField record "thumbnail_url")), ?_, ?_⟩
    · unfold AdCreatives.read_records
      simpa using List.mem_map_of_mem _ hmem
    · exact getField_setField record "thumbnail_data_url" _
  · intro status contentType content hs
    simp [fetch_thumbnail_data_url, hs]

theorem C8_witness :
    (∃ yielded ∈ AdCreatives.read_records true
        (fun _u => .resp 404 "image/jpeg" [1, 2, 3])
        [[("thumbnail_url", some "someurl")]],
      getField yielded "thumbnail_data_url" =
        thumbnailFor (fun _u => .resp 404 "image/jpeg" [1, 2, 3])
          (getField [("thumbnail_url", some "someurl")] "thumbnail_url")) ∧
    (∀ status contentType content, status ≠ 200 →
      fetch_thumbnail_data_url (.resp status contentType content) = none) ∧
    (∀ msg, fetch_thumbnail_data_url (.exn msg) = none) ∧
    (∀ contentType content,
      fetch_thumbnail_data_url (.resp 200 contentType content) =
        some ("data:" ++ contentType ++ ";base64," ++
          String.mk (base64Encode content))) :=
  C8_thumbnail_swallows_faults [[("thumbnail_url", some "someurl")]]
    (fun _u => .resp 404 "image/jpeg" [1, 2, 3])
    [("thumbnail_url", some "someurl")] (List.mem_singleton.mpr rfl)

end FacebookMarketing
